import Mathlib

/-!
Verification development for the Wikipedia ETL ingestion pipeline
(`pipeline.py`): a shallow embedding of the event filter, the
normalization step `transform_data`, the SQLite-backed store with its
retention cleanup, and the coordinator loop `pipeline` / `main`, together
with theorems settling the specification claims about them.
-/

/-- Decoded JSON values as produced by `json.loads`. JSON numbers are
modelled as integers (the feed's `length` fields are integral); JSON
`null` and Python `None` are identified, since `json.loads` maps JSON
`null` to the Python object `None` and `dict.get` returns that same
object for an absent key. -/
inductive JsonVal where
  | null : JsonVal
  | bool (b : Bool) : JsonVal
  | int (n : ℤ) : JsonVal
  | str (s : String) : JsonVal
  | arr (xs : List JsonVal) : JsonVal
  | obj (fields : List (String × JsonVal)) : JsonVal

/-- Python exception classes that can be raised on the per-event path of
`pipeline.py` (`requests` transport errors, `json`/`dict` decode errors,
coercion errors from `int()`/attribute access, `sqlite3.Error`, and
`KeyboardInterrupt`). -/
inductive PyError where
  | typeError : PyError
  | valueError : PyError
  | attributeError : PyError
  | jsonDecodeError : PyError
  | keyError : PyError
  | sqliteError : PyError
  | requestsTimeout : PyError
  | requestsConnectionError : PyError
  | chunkedEncodingError : PyError
  | keyboardInterrupt : PyError
deriving DecidableEq

/-- Python `dict.get(k, default)` on a decoded JSON object: the value of
the first binding of `k`, else the default. -/
def dictGetD (fs : List (String × JsonVal)) (k : String) (d : JsonVal) : JsonVal :=
  (List.lookup k fs).getD d

/-- Python `dict.get(k)` (one-argument form): absent keys give `None`. -/
def dictGet (fs : List (String × JsonVal)) (k : String) : JsonVal :=
  dictGetD fs k .null

/-- Python `v.get(k, default)` where `v` is an arbitrary decoded value:
an `AttributeError` is raised when `v` is not a dict (`.get` only exists
on dicts). -/
def pyGetAttrD (v : JsonVal) (k : String) (d : JsonVal) : Except PyError JsonVal :=
  match v with
  | .obj fs => .ok (dictGetD fs k d)
  | _ => .error .attributeError

mutual
/-- Python `repr` of a decoded JSON value (used by `str` on containers).
Literal quote and brace characters are written via hex escapes. -/
def pyRepr : JsonVal → String
  | .null => "None"
  | .bool true => "True"
  | .bool false => "False"
  | .int n => toString n
  | .str s => "\x27" ++ s ++ "\x27"
  | .arr xs => "[" ++ pyReprList xs ++ "]"
  | .obj fs => "\x7b" ++ pyReprFields fs ++ "\x7d"

/-- Comma-separated `repr` of a list of values. -/
def pyReprList : List JsonVal → String
  | [] => ""
  | [x] => pyRepr x
  | x :: xs => pyRepr x ++ ", " ++ pyReprList xs

/-- Comma-separated `repr` of the bindings of a dict. -/
def pyReprFields : List (String × JsonVal) → String
  | [] => ""
  | [(k, v)] => "\x27" ++ k ++ "\x27: " ++ pyRepr v
  | (k, v) :: xs => "\x27" ++ k ++ "\x27: " ++ pyRepr v ++ ", " ++ pyReprFields xs
end

/-- Python `str()` on a decoded JSON value: strings pass through
unquoted, `None` becomes the four-character text `"None"`, booleans and
integers print in Python spelling, containers print as their `repr`. -/
def pyStr : JsonVal → String
  | .str s => s
  | v => pyRepr v

/-- Numeric value of a list of decimal digit characters. -/
def digitsToNat (l : List Char) : ℕ :=
  l.foldl (fun a c => 10 * a + (c.toNat - 48)) 0

/-- Python `int(s)` on a string: strip surrounding whitespace, allow one
sign character, then require a nonempty run of digits; anything else
raises `ValueError`. -/
def pyIntOfString (s : String) : Except PyError ℤ :=
  let t := ((s.toList.dropWhile Char.isWhitespace).reverse.dropWhile Char.isWhitespace).reverse
  match t with
  | '-' :: ds =>
    if ds ≠ [] ∧ ds.all Char.isDigit then .ok (-(digitsToNat ds : ℤ)) else .error .valueError
  | '+' :: ds =>
    if ds ≠ [] ∧ ds.all Char.isDigit then .ok (digitsToNat ds : ℤ) else .error .valueError
  | ds =>
    if ds ≠ [] ∧ ds.all Char.isDigit then .ok (digitsToNat ds : ℤ) else .error .valueError

/-- Python `int()` applied to a decoded JSON value: booleans give 0/1,
integers pass through, strings are parsed, and `None` (so also an absent
`dict.get` result) raises `TypeError`, as do containers. -/
def pyInt : JsonVal → Except PyError ℤ
  | .bool true => .ok 1
  | .bool false => .ok 0
  | .int n => .ok n
  | .str s => pyIntOfString s
  | _ => .error .typeError

/-- Python `s.replace(a, b)` for a single-character pattern and a
single-character replacement: replace every occurrence. -/
def pyReplaceChar (s : String) (a b : Char) : String :=
  String.mk (s.toList.map (fun c => if c == a then b else c))

/-- Python `s.replace(a, "")` for a single-character pattern: delete
every occurrence. -/
def pyDeleteChar (s : String) (a : Char) : String :=
  String.mk (s.toList.filter (fun c => c != a))

/-- The normalized record built by `transform_data` (the `clean_data`
dict), lines 112-121 of `pipeline.py`. -/
structure CleanData where
  event_timestamp : String
  title : String
  title_url : String
  bot : ℤ
  username : String
  length_bytes_old : ℤ
  length_bytes_new : ℤ
  length_diff_bytes : ℤ
deriving DecidableEq

/-- Embedding of `transform_data` (`pipeline.py` lines 96-123), with the
source's evaluation order: `str(data.get('meta', {}).get('dt'))`, then
`int(length_data.get('old', 0))`, `int(length_data.get('new', 0))`, the
difference, then the `clean_data` dict whose entries evaluate
`str`/`int` in literal order — in particular `int(data.get('bot'))`,
which raises `TypeError` when `bot` is absent or `null`. Any raised
exception escapes the function (there is no handler inside it). -/
def transform_data (data : List (String × JsonVal)) : Except PyError CleanData :=
  match pyGetAttrD (dictGetD data "meta" (.obj [])) "dt" .null with
  | .error e => .error e
  | .ok dtV =>
    match pyGetAttrD (dictGetD data "length" (.obj [])) "old" (.int 0) with
    | .error e => .error e
    | .ok oldV =>
      match pyInt oldV with
      | .error e => .error e
      | .ok length_old =>
        match pyGetAttrD (dictGetD data "length" (.obj [])) "new" (.int 0) with
        | .error e => .error e
        | .ok newV =>
          match pyInt newV with
          | .error e => .error e
          | .ok length_new =>
            match pyInt (dictGet data "bot") with
            | .error e => .error e
            | .ok bot =>
              .ok {
                event_timestamp := pyDeleteChar (pyReplaceChar (pyStr dtV) 'T' ' ') 'Z',
                title := pyStr (dictGet data "title"),
                title_url := pyStr (dictGet data "title_url"),
                bot := bot,
                username := pyStr (dictGet data "user"),
                length_bytes_old := length_old,
                length_bytes_new := length_new,
                length_diff_bytes := length_old - length_new }

/-- The type filter of `sse_event_generator` (`pipeline.py` line 84):
`data.get('type') in ('edit', 'new')`. Python `in` on a tuple is
equality with each member; equality of a non-string (including `None`
for an absent key) with a string is `False`. -/
def sse_event_keep (data : List (String × JsonVal)) : Bool :=
  match dictGet data "type" with
  | .str s => s == "edit" || s == "new"
  | _ => false

/-- Characters that can occur in the date/time bodies of a Z-suffixed
ISO-8601 timestamp (digits, hyphen, colon, dot) — notably neither `T`
nor `Z`. -/
def isoBodyChar (c : Char) : Bool :=
  c.isDigit || c == '-' || c == ':' || c == '.'

/-- The writer connection's view of the SQLite table created by
`database_init`: `nextId` is the next value the `AUTOINCREMENT` primary
key will assign (SQLite guarantees it exceeds every id ever assigned,
starting from 1), `committed` are the ids of committed live rows and
`pending` the ids of rows inserted since the last commit. Row contents
are irrelevant to the claims about the store, so rows are carried by
their ids. -/
structure Store where
  nextId : ℕ
  committed : Finset ℕ
  pending : Finset ℕ
deriving DecidableEq

/-- Rows visible on the writer's own connection (`SELECT` inside the
open transaction sees both committed and uncommitted rows). -/
def liveSet (s : Store) : Finset ℕ :=
  s.committed ∪ s.pending

/-- The store right after `database_init` on a fresh file: empty table,
first `AUTOINCREMENT` id 1. -/
def initStore : Store :=
  { nextId := 1, committed := ∅, pending := ∅ }

/-- A successful `INSERT`: the new row gets id `nextId` and joins the
open transaction; the counter moves past it. -/
def insertStore (s : Store) : Store :=
  { nextId := s.nextId + 1, committed := s.committed, pending := insert s.nextId s.pending }

/-- Embedding of `db_connection.commit()`: pending rows become
committed. -/
def commitStore (s : Store) : Store :=
  { nextId := s.nextId, committed := s.committed ∪ s.pending, pending := ∅ }

/-- Embedding of the cleanup trigger expression `int(1.1*db_max_events)`
(`pipeline.py` line 41): `⌊11·M/10⌋`, which agrees with the Python
float computation at the magnitudes the claims use (`M = 1000` gives
1100). -/
def cleanup_threshold (M : ℕ) : ℕ :=
  11 * M / 10

/-- SQL `(SELECT MAX(id) FROM t)` on the writer connection, as a natural
number: the supremum of the live ids, 0 for the empty table. (On the
empty table SQL yields `NULL` and `WHERE id < NULL` deletes nothing;
with the 0 default the cutoff `MAX(0, 0 − M)` is 0 and there is likewise
nothing to delete, so the two agree.) -/
def sqlMaxId (s : Store) : ℕ :=
  (liveSet s).sup id

/-- Embedding of the retention statement (`pipeline.py` lines 42-45):
`DELETE FROM t WHERE id < MAX(0, (SELECT MAX(id) FROM t) - M)` — every
live row with id below the clamped cutoff is deleted from the
connection's view. -/
def cleanupStore (M : ℕ) (s : Store) : Store :=
  { nextId := s.nextId,
    committed := s.committed.filter (fun i => ¬ ((i : ℤ) < max 0 ((sqlMaxId s : ℤ) - (M : ℤ)))),
    pending := s.pending.filter (fun i => ¬ ((i : ℤ) < max 0 ((sqlMaxId s : ℤ) - (M : ℤ)))) }

/-- The store mutations the coordinator performs, in the abstract: a
successful insert, a commit, and a retention cleanup with row bound
`M`. -/
inductive StoreOp where
  | insert : StoreOp
  | commit : StoreOp
  | cleanup (M : ℕ) : StoreOp

/-- Apply one store operation. -/
def applyOp (s : Store) : StoreOp → Store
  | .insert => insertStore s
  | .commit => commitStore s
  | .cleanup M => cleanupStore M s

/-- Run a sequence of store operations. -/
def runOps (s : Store) : List StoreOp → Store
  | [] => s
  | op :: rest => runOps (applyOp s op) rest

/-- The ids assigned to the successful inserts of an operation
sequence, in insertion order. -/
def assignedIds (s : Store) : List StoreOp → List ℕ
  | [] => []
  | .insert :: rest => s.nextId :: assignedIds (insertStore s) rest
  | op :: rest => assignedIds (applyOp s op) rest

/-- Number of inserts in an operation sequence. -/
def countInserts : List StoreOp → ℕ
  | [] => 0
  | .insert :: rest => countInserts rest + 1
  | _ :: rest => countInserts rest

/-- One frame handed to the loop body of `sse_event_generator`: either
`json.loads` raises `JSONDecodeError` on `event.data`, or it yields a
decoded value. (Frames whose SSE event type is not `message` or whose
data is empty never reach this point.) -/
inductive Frame where
  | invalid : Frame
  | payload (v : JsonVal) : Frame

/-- One observable step of the stream as consumed by `pipeline`:
a decoded frame (with two oracles: whether the 2-second commit interval
has elapsed at this point, and whether `cursor.execute` would raise
`sqlite3.Error` for this row), a transport failure raised by the
generator (`requests` timeout, connection reset, or chunked-encoding
error — exactly the classes of the `except` clause at lines 50-52), or
delivery of a `KeyboardInterrupt`. -/
inductive StreamItem where
  | frame (f : Frame) (commitDue : Bool) (insertFails : Bool) : StreamItem
  | transportFail (e : PyError) : StreamItem
  | interrupt : StreamItem

/-- State of the `pipeline` loop (`pipeline.py` lines 22-55): the store
connection, the `rows_added_to_db` counter, the durations passed to
`time.sleep` so far, and how many times `sse_event_generator` has been
invoked (the initial call counts as the first connection). -/
structure PipeState where
  store : Store
  rows_added : ℕ
  sleeps : List ℕ
  connections : ℕ
deriving DecidableEq

/-- The state on entering the `while True` loop. -/
def initPipeState : PipeState :=
  { store := initStore, rows_added := 0, sleeps := [], connections := 1 }

/-- The fixed backoff delay of `time.sleep(5)` at line 54. -/
def backoff_delay_seconds : ℕ := 5

/-- One iteration of `pipeline`'s event handling (`pipeline.py` lines
25-55), with `M = db_max_events`. A transport failure is caught by the
`except` clause: sleep 5 seconds and re-invoke the generator. An invalid
JSON frame is skipped inside the generator. A decoded non-dict payload
raises `AttributeError` at `data.get('type')`, which no handler on the
path catches. A kept dict payload goes through `db_insert_event`: a
`transform_data` exception propagates (the `try` there only covers
`cursor.execute`); an `sqlite3.Error` makes `db_insert_event` return
`False` and the loop moves on; on success the row is inserted,
`rows_added_to_db` increments, and if the commit interval has elapsed
the batch is committed, the row count checked, and the retention cleanup
run and committed when the count reaches `int(1.1*M)`. A
`KeyboardInterrupt` propagates out of the loop. A returned error is an
exception escaping `pipeline`. -/
def pipeline_step (M : ℕ) (st : PipeState) : StreamItem → Except PyError PipeState
  | .interrupt => .error .keyboardInterrupt
  | .transportFail _ =>
    .ok { st with sleeps := st.sleeps ++ [backoff_delay_seconds],
                  connections := st.connections + 1 }
  | .frame .invalid _ _ => .ok st
  | .frame (.payload v) commitDue insertFails =>
    match v with
    | .obj data =>
      if sse_event_keep data then
        match transform_data data with
        | .error e => .error e
        | .ok _clean =>
          if insertFails then .ok st
          else
            if commitDue then
              if cleanup_threshold M ≤ (liveSet (commitStore (insertStore st.store))).card then
                .ok { st with store := commitStore (cleanupStore M (commitStore (insertStore st.store))),
                              rows_added := st.rows_added + 1 }
              else
                .ok { st with store := commitStore (insertStore st.store),
                              rows_added := st.rows_added + 1 }
            else
              .ok { st with store := insertStore st.store,
                            rows_added := st.rows_added + 1 }
      else .ok st
    | _ => .error .attributeError

/-- Run `pipeline` over a finite observation of the stream. The loop
itself is infinite; exhausting the observation returns the current state
with no error. An uncaught exception stops the loop and is returned with
the state at the point it was raised. -/
def pipeline_run (M : ℕ) (st : PipeState) : List StreamItem → PipeState × Option PyError
  | [] => (st, none)
  | it :: rest =>
    match pipeline_step M st it with
    | .ok st1 => pipeline_run M st1 rest
    | .error e => (st, some e)

/-- Result of `main` (`pipeline.py` lines 211-231): the store after the
`finally` block (which commits the final partial batch and then closes
the connection), and the exception escaping `main`, if any —
`KeyboardInterrupt` is caught by the `except` clause and escapes
nothing. -/
structure MainResult where
  store : Store
  error : Option PyError

/-- Embedding of `main`: run `pipeline`; on any exit path the `finally`
block commits the pending batch before releasing the connection, and a
`KeyboardInterrupt` is absorbed. -/
def main_run (M : ℕ) (items : List StreamItem) : MainResult :=
  { store := commitStore (pipeline_run M initPipeState items).1.store,
    error := match (pipeline_run M initPipeState items).2 with
      | some .keyboardInterrupt => none
      | e => e }

/-- A stream item that cannot raise an uncaught exception in the loop
body: anything except an interrupt, a non-dict decoded payload, and a
kept payload on which `transform_data` raises. -/
def benignItem : StreamItem → Prop
  | .interrupt => False
  | .transportFail _ => True
  | .frame .invalid _ _ => True
  | .frame (.payload (.obj data)) _ _ =>
      sse_event_keep data = true → ∃ r, transform_data data = Except.ok r
  | .frame (.payload _) _ _ => False

/-- Concrete observation: one successful insert (no commit tick), then a
stop signal while the row is still uncommitted. -/
def c5items : List StreamItem :=
  [.frame (.payload (.obj [("type", JsonVal.str "edit"), ("bot", JsonVal.bool true)]))
     false false,
   .interrupt]

/-- Concrete kept event with a Z-suffixed ISO-8601 `meta.dt`. -/
def c3data : List (String × JsonVal) :=
  [("type", JsonVal.str "edit"), ("bot", JsonVal.bool true),
   ("meta", JsonVal.obj [("dt", JsonVal.str "2024-01-01T00:00:00Z")])]

/-- The `meta` object of `c3data`. -/
def c3meta : List (String × JsonVal) :=
  [("dt", JsonVal.str "2024-01-01T00:00:00Z")]

/-- Normalization of `c3data`. -/
def c3rec : CleanData :=
  { event_timestamp := "2024-01-01 00:00:00", title := "None", title_url := "None",
    bot := 1, username := "None", length_bytes_old := 0, length_bytes_new := 0,
    length_diff_bytes := 0 }

/-- Concrete kept event with no `length` object. -/
def c8dataNoLength : List (String × JsonVal) :=
  [("type", JsonVal.str "edit"), ("bot", JsonVal.bool false)]

/-- Concrete kept event with `length.old = 100`, `length.new = 80`. -/
def c8dataShrink : List (String × JsonVal) :=
  [("type", JsonVal.str "edit"), ("bot", JsonVal.bool false),
   ("length", JsonVal.obj [("old", JsonVal.int 100), ("new", JsonVal.int 80)])]

/-- Concrete kept event with `length.old = 80`, `length.new = 100`. -/
def c8dataGrow : List (String × JsonVal) :=
  [("type", JsonVal.str "edit"), ("bot", JsonVal.bool false),
   ("length", JsonVal.obj [("old", JsonVal.int 80), ("new", JsonVal.int 100)])]

/-- Normalization of `c8dataNoLength`. -/
def c8recNoLength : CleanData :=
  { event_timestamp := "None", title := "None", title_url := "None", bot := 0,
    username := "None", length_bytes_old := 0, length_bytes_new := 0,
    length_diff_bytes := 0 }

/-- Normalization of `c8dataShrink`. -/
def c8recShrink : CleanData :=
  { event_timestamp := "None", title := "None", title_url := "None", bot := 0,
    username := "None", length_bytes_old := 100, length_bytes_new := 80,
    length_diff_bytes := 20 }

/-- Normalization of `c8dataGrow`. -/
def c8recGrow : CleanData :=
  { event_timestamp := "None", title := "None", title_url := "None", bot := 0,
    username := "None", length_bytes_old := 80, length_bytes_new := 100,
    length_diff_bytes := -20 }

/-- Concrete kept event with `title`, `title_url` and `user` all absent. -/
def c9data : List (String × JsonVal) :=
  [("type", JsonVal.str "new"), ("bot", JsonVal.bool false)]

/-- Normalization of `c9data`. -/
def c9rec : CleanData :=
  { event_timestamp := "None", title := "None", title_url := "None", bot := 0,
    username := "None", length_bytes_old := 0, length_bytes_new := 0,
    length_diff_bytes := 0 }

/-- Concrete kept event whose `meta` object lacks `dt`. -/
def c10data : List (String × JsonVal) :=
  [("type", JsonVal.str "new"), ("bot", JsonVal.bool true),
   ("meta", JsonVal.obj [("domain", JsonVal.str "en.wikipedia.org")])]

/-- Normalization of `c10data`. -/
def c10rec : CleanData :=
  { event_timestamp := "None", title := "None", title_url := "None", bot := 1,
    username := "None", length_bytes_old := 0, length_bytes_new := 0,
    length_diff_bytes := 0 }

/-- Inversion for a successful `transform_data` run: every field of the
produced record is the corresponding source expression, and every
intermediate coercion succeeded. -/
theorem transform_data_ok_inv (data : List (String × JsonVal)) (r : CleanData)
    (h : transform_data data = Except.ok r) :
    ∃ dtV oldV newV lo ln bo,
      pyGetAttrD (dictGetD data "meta" (.obj [])) "dt" .null = Except.ok dtV ∧
      pyGetAttrD (dictGetD data "length" (.obj [])) "old" (.int 0) = Except.ok oldV ∧
      pyInt oldV = Except.ok lo ∧
      pyGetAttrD (dictGetD data "length" (.obj [])) "new" (.int 0) = Except.ok newV ∧
      pyInt newV = Except.ok ln ∧
      pyInt (dictGet data "bot") = Except.ok bo ∧
      r = { event_timestamp := pyDeleteChar (pyReplaceChar (pyStr dtV) 'T' ' ') 'Z',
            title := pyStr (dictGet data "title"),
            title_url := pyStr (dictGet data "title_url"),
            bot := bo,
            username := pyStr (dictGet data "user"),
            length_bytes_old := lo,
            length_bytes_new := ln,
            length_diff_bytes := lo - ln } := by
  unfold transform_data at h
  split at h
  next e hdt => exact Except.noConfusion h
  next dtV hdt =>
    split at h
    next e hold => exact Except.noConfusion h
    next oldV hold =>
      split at h
      next e hlo => exact Except.noConfusion h
      next lo hlo =>
        split at h
        next e hnew => exact Except.noConfusion h
        next newV hnew =>
          split at h
          next e hln => exact Except.noConfusion h
          next ln hln =>
            split at h
            next e hbo => exact Except.noConfusion h
            next bo hbo =>
              exact ⟨dtV, oldV, newV, lo, ln, bo, hdt, hold, hlo, hnew, hln, hbo,
                (Except.ok.inj h).symm⟩

/-- Lookup absence makes `dict.get` return its default. -/
theorem dictGetD_of_lookup_none (fs : List (String × JsonVal)) (k : String) (d : JsonVal)
    (h : List.lookup k fs = none) : dictGetD fs k d = d := by
  unfold dictGetD
  rw [h]
  rfl

/-- Lookup success makes `dict.get` return the bound value. -/
theorem dictGetD_of_lookup_some (fs : List (String × JsonVal)) (k : String) (d v : JsonVal)
    (h : List.lookup k fs = some v) : dictGetD fs k d = v := by
  unfold dictGetD
  rw [h]
  rfl

/-- Successful attribute access on a dict is the dict lookup. -/
theorem pyGetAttr_obj_inv (L : List (String × JsonVal)) (k : String) (dflt v : JsonVal)
    (h : pyGetAttrD (JsonVal.obj L) k dflt = Except.ok v) : dictGetD L k dflt = v := by
  simpa [pyGetAttrD] using h

/-- Integer coercion of an integer value. -/
theorem pyInt_int_inv (a lo : ℤ) (h : pyInt (JsonVal.int a) = Except.ok lo) : lo = a := by
  simpa [pyInt] using (Except.ok.inj h).symm

/-- Claim C4 (recorded behavior at the failing input): a kept event
carrying a boolean `bot` normalizes with `bot` coerced to 1 or 0, but a
kept event with `bot` absent makes `transform_data` raise `TypeError`
(`int(None)`) instead of defaulting the field to 0 — the whole record
fails, contradicting the claim's "without failing". -/
theorem c4_missing_bot_raises_typeerror :
    transform_data [("type", JsonVal.str "edit"), ("bot", JsonVal.bool true)] =
      Except.ok { event_timestamp := "None", title := "None", title_url := "None",
                  bot := 1, username := "None", length_bytes_old := 0,
                  length_bytes_new := 0, length_diff_bytes := 0 } ∧
    transform_data [("type", JsonVal.str "edit"), ("bot", JsonVal.bool false)] =
      Except.ok { event_timestamp := "None", title := "None", title_url := "None",
                  bot := 0, username := "None", length_bytes_old := 0,
                  length_bytes_new := 0, length_diff_bytes := 0 } ∧
    transform_data [("type", JsonVal.str "edit")] = Except.error PyError.typeError := by
  exact ⟨rfl, rfl, rfl⟩

/-- Claim C9: for every event that normalizes successfully, an absent
`title`, `title_url` or `user` key yields the literal placeholder string
"None" in the corresponding normalized field (`title`, `title_url`,
`username`) — a string value, never a null. -/
theorem c9_absent_strings_get_placeholder (data : List (String × JsonVal)) (r : CleanData)
    (h : transform_data data = Except.ok r) :
    (List.lookup "title" data = none → r.title = "None") ∧
    (List.lookup "title_url" data = none → r.title_url = "None") ∧
    (List.lookup "user" data = none → r.username = "None") := by
  obtain ⟨dtV, oldV, newV, lo, ln, bo, hdt, hold, hlo, hnew, hln, hbo, hr⟩ :=
    transform_data_ok_inv data r h
  subst hr
  refine ⟨fun h1 => ?_, fun h1 => ?_, fun h1 => ?_⟩ <;>
    simp [dictGet, dictGetD_of_lookup_none _ _ _ h1, pyStr, pyRepr]

/-- Claim C9 witness: a concrete kept event with all three keys absent
normalizes with the placeholder in each field. -/
theorem c9_witness :
    transform_data c9data = Except.ok c9rec ∧
    List.lookup "title" c9data = none ∧
    c9rec.title = "None" ∧ c9rec.title_url = "None" ∧ c9rec.username = "None" := by
  have h := c9_absent_strings_get_placeholder c9data c9rec (by rfl)
  exact ⟨rfl, rfl, h.1 (by rfl), h.2.1 (by rfl), h.2.2 (by rfl)⟩

/-- Claim C10: for every event that normalizes successfully with `meta`
absent, or with a `meta` object lacking `dt`, the normalized
`event_timestamp` is the literal four-character string "None"
(`str(None)`, unchanged by the `T`/`Z` replacements). -/
theorem c10_missing_dt_timestamp_is_None (data m : List (String × JsonVal)) (r : CleanData)
    (h : transform_data data = Except.ok r)
    (hm : List.lookup "meta" data = none ∨
      (List.lookup "meta" data = some (JsonVal.obj m) ∧ List.lookup "dt" m = none)) :
    r.event_timestamp = "None" := by
  obtain ⟨dtV, oldV, newV, lo, ln, bo, hdt, hold, hlo, hnew, hln, hbo, hr⟩ :=
    transform_data_ok_inv data r h
  have hdtV : dtV = JsonVal.null := by
    rcases hm with h1 | ⟨h1, h2⟩
    · rw [dictGetD_of_lookup_none _ _ _ h1] at hdt
      have := pyGetAttr_obj_inv _ _ _ _ hdt
      simpa [dictGetD] using this.symm
    · rw [dictGetD_of_lookup_some _ _ _ _ h1] at hdt
      have := pyGetAttr_obj_inv _ _ _ _ hdt
      rw [dictGetD_of_lookup_none _ _ _ h2] at this
      exact this.symm
  subst hr hdtV
  rfl

/-- Claim C10 witness: a concrete kept event whose `meta` lacks `dt`
normalizes with `event_timestamp = "None"`. -/
theorem c10_witness :
    transform_data c10data = Except.ok c10rec ∧ c10rec.event_timestamp = "None" := by
  exact ⟨rfl, c10_missing_dt_timestamp_is_None c10data
    [("domain", JsonVal.str "en.wikipedia.org")] c10rec (by rfl) (Or.inr ⟨rfl, rfl⟩)⟩

/-- Claim C8: for every event that normalizes successfully,
`length_diff_bytes` is the signed difference `old − new`; an absent
`length` object (or an absent `old`/`new` key inside it) defaults the
corresponding field to 0; and integer-valued `old`/`new` produce exactly
`old − new` (so 100/80 gives 20 and 80/100 gives −20). -/
theorem c8_length_defaulting_and_diff (data : List (String × JsonVal)) (r : CleanData)
    (h : transform_data data = Except.ok r) :
    r.length_diff_bytes = r.length_bytes_old - r.length_bytes_new ∧
    (List.lookup "length" data = none →
      r.length_bytes_old = 0 ∧ r.length_bytes_new = 0 ∧ r.length_diff_bytes = 0) ∧
    (∀ L, List.lookup "length" data = some (JsonVal.obj L) →
      (List.lookup "old" L = none → r.length_bytes_old = 0) ∧
      (List.lookup "new" L = none → r.length_bytes_new = 0)) ∧
    (∀ L, List.lookup "length" data = some (JsonVal.obj L) →
      ∀ a b : ℤ, List.lookup "old" L = some (JsonVal.int a) →
        List.lookup "new" L = some (JsonVal.int b) →
        r.length_diff_bytes = a - b) := by
  obtain ⟨dtV, oldV, newV, lo, ln, bo, hdt, hold, hlo, hnew, hln, hbo, hr⟩ :=
    transform_data_ok_inv data r h
  subst hr
  refine ⟨rfl, fun h1 => ?_, fun L h1 => ⟨fun h2 => ?_, fun h2 => ?_⟩, fun L h1 a b h2 h3 => ?_⟩
  · rw [dictGetD_of_lookup_none _ _ _ h1] at hold hnew
    have ho := pyGetAttr_obj_inv _ _ _ _ hold
    have hn := pyGetAttr_obj_inv _ _ _ _ hnew
    simp only [dictGetD, List.lookup, Option.getD_none] at ho hn
    subst ho hn
    have hlo0 := pyInt_int_inv _ _ hlo
    have hln0 := pyInt_int_inv _ _ hln
    subst hlo0 hln0
    exact ⟨rfl, rfl, rfl⟩
  · rw [dictGetD_of_lookup_some _ _ _ _ h1] at hold
    have ho := pyGetAttr_obj_inv _ _ _ _ hold
    rw [dictGetD_of_lookup_none _ _ _ h2] at ho
    subst ho
    exact (pyInt_int_inv _ _ hlo)
  · rw [dictGetD_of_lookup_some _ _ _ _ h1] at hnew
    have hn := pyGetAttr_obj_inv _ _ _ _ hnew
    rw [dictGetD_of_lookup_none _ _ _ h2] at hn
    subst hn
    exact (pyInt_int_inv _ _ hln)
  · rw [dictGetD_of_lookup_some _ _ _ _ h1] at hold hnew
    have ho := pyGetAttr_obj_inv _ _ _ _ hold
    have hn := pyGetAttr_obj_inv _ _ _ _ hnew
    rw [dictGetD_of_lookup_some _ _ _ _ h2] at ho
    rw [dictGetD_of_lookup_some _ _ _ _ h3] at hn
    subst ho hn
    have hlo0 := pyInt_int_inv _ _ hlo
    have hln0 := pyInt_int_inv _ _ hln
    simp [hlo0, hln0]

/-- Claim C8 witness: concrete events exercising the defaulting and the
two diff-sign examples of the claim. -/
theorem c8_witness :
    transform_data c8dataNoLength = Except.ok c8recNoLength ∧
    (c8recNoLength.length_bytes_old = 0 ∧ c8recNoLength.length_bytes_new = 0 ∧
      c8recNoLength.length_diff_bytes = 0) ∧
    transform_data c8dataShrink = Except.ok c8recShrink ∧
    c8recShrink.length_diff_bytes = 20 ∧
    transform_data c8dataGrow = Except.ok c8recGrow ∧
    c8recGrow.length_diff_bytes = -20 := by
  refine ⟨rfl, ?_, rfl, ?_, rfl, ?_⟩
  · exact (c8_length_defaulting_and_diff c8dataNoLength c8recNoLength (by rfl)).2.1 (by rfl)
  · have := (c8_length_defaulting_and_diff c8dataShrink c8recShrink (by rfl)).2.2.2
      [("old", JsonVal.int 100), ("new", JsonVal.int 80)] (by rfl) 100 80 (by rfl) (by rfl)
    simpa using this
  · have := (c8_length_defaulting_and_diff c8dataGrow c8recGrow (by rfl)).2.2.2
      [("old", JsonVal.int 80), ("new", JsonVal.int 100)] (by rfl) 80 100 (by rfl) (by rfl)
    simpa using this

/-- ISO-8601 body characters are neither the `T` separator nor the `Z`
suffix. -/
theorem isoBodyChar_ne (c : Char) (h : isoBodyChar c = true) : c ≠ 'T' ∧ c ≠ 'Z' := by
  constructor <;> rintro rfl <;> revert h <;> decide

/-- Mapping the single-character replacement over a list free of the
pattern leaves it unchanged. -/
theorem map_if_eq_self (a b : Char) (l : List Char) (h : ∀ c ∈ l, c ≠ a) :
    l.map (fun c => if c == a then b else c) = l := by
  induction l with
  | nil => rfl
  | cons x xs ih =>
    have hx : (x == a) = false := by simpa using h x (List.mem_cons_self _ _)
    simp only [List.map_cons, hx, Bool.false_eq_true, if_false]
    exact congrArg (x :: ·) (ih fun c hc => h c (List.mem_cons_of_mem _ hc))

/-- Filtering out a character absent from a list leaves it unchanged. -/
theorem filter_ne_eq_self (a : Char) (l : List Char) (h : ∀ c ∈ l, c ≠ a) :
    l.filter (fun c => c != a) = l := by
  induction l with
  | nil => rfl
  | cons x xs ih =>
    have hx : (x != a) = true := by simpa using h x (List.mem_cons_self _ _)
    simp only [List.filter_cons, hx, if_true]
    exact congrArg (x :: ·) (ih fun c hc => h c (List.mem_cons_of_mem _ hc))

/-- The timestamp normalization of line 113 on a Z-suffixed ISO-8601
string: replacing `T` by a space and deleting `Z` yields the date, a
space, and the time. -/
theorem iso_timestamp_replace (d t : List Char)
    (hd : ∀ c ∈ d, isoBodyChar c = true) (ht : ∀ c ∈ t, isoBodyChar c = true) :
    pyDeleteChar (pyReplaceChar (String.mk (d ++ 'T' :: (t ++ ['Z']))) 'T' ' ') 'Z'
      = String.mk (d ++ ' ' :: t) := by
  have hdT : ∀ c ∈ d, c ≠ 'T' := fun c hc => (isoBodyChar_ne c (hd c hc)).1
  have hdZ : ∀ c ∈ d, c ≠ 'Z' := fun c hc => (isoBodyChar_ne c (hd c hc)).2
  have htT : ∀ c ∈ t, c ≠ 'T' := fun c hc => (isoBodyChar_ne c (ht c hc)).1
  have htZ : ∀ c ∈ t, c ≠ 'Z' := fun c hc => (isoBodyChar_ne c (ht c hc)).2
  unfold pyReplaceChar pyDeleteChar
  congr 1
  show List.filter (fun c => c != 'Z')
      (List.map (fun c => if c == 'T' then ' ' else c) (d ++ 'T' :: (t ++ ['Z'])))
      = d ++ ' ' :: t
  rw [List.map_append, List.map_cons, List.map_append,
      map_if_eq_self _ _ _ hdT, map_if_eq_self _ _ _ htT]
  have e1 : (if ('T' == 'T') then ' ' else 'T') = ' ' := rfl
  have e2 : List.map (fun c => if c == 'T' then ' ' else c) ['Z'] = ['Z'] := rfl
  rw [e1, e2, List.filter_append, List.filter_cons, filter_ne_eq_self _ _ hdZ]
  have e3 : ((' ' != 'Z') = true) := rfl
  simp only [e3, if_true, List.filter_append, filter_ne_eq_self _ _ htZ]
  have e4 : List.filter (fun c => c != 'Z') ['Z'] = [] := rfl
  rw [e4, List.append_nil]

/-- Claim C3: a decoded JSON object payload is yielded by
`sse_event_generator` iff its `type` field is the string "edit" or
"new"; and for every kept payload that normalizes, if `meta.dt` is a
Z-suffixed ISO-8601 timestamp (date body, `T`, time body, `Z`) the
normalized `event_timestamp` is the same text with the `T` replaced by
a space and the trailing `Z` removed. -/
theorem c3_filter_iff_and_timestamp_normalization :
    (∀ data : List (String × JsonVal),
      sse_event_keep data = true ↔
        (List.lookup "type" data = some (JsonVal.str "edit") ∨
         List.lookup "type" data = some (JsonVal.str "new"))) ∧
    (∀ (data m : List (String × JsonVal)) (d t : List Char) (r : CleanData),
      sse_event_keep data = true →
      transform_data data = Except.ok r →
      List.lookup "meta" data = some (JsonVal.obj m) →
      List.lookup "dt" m = some (JsonVal.str (String.mk (d ++ 'T' :: (t ++ ['Z'])))) →
      (∀ c ∈ d, isoBodyChar c = true) →
      (∀ c ∈ t, isoBodyChar c = true) →
      r.event_timestamp = String.mk (d ++ ' ' :: t)) := by
  constructor
  · intro data
    unfold sse_event_keep dictGet dictGetD
    cases hl : List.lookup "type" data with
    | none => simp
    | some v => cases v <;> simp
  · intro data m d t r hkeep h hm hdtm hd ht
    obtain ⟨dtV, oldV, newV, lo, ln, bo, hdt, hold, hlo, hnew, hln, hbo, hr⟩ :=
      transform_data_ok_inv data r h
    rw [dictGetD_of_lookup_some _ _ _ _ hm] at hdt
    have h2 := pyGetAttr_obj_inv _ _ _ _ hdt
    rw [dictGetD_of_lookup_some _ _ _ _ hdtm] at h2
    subst hr
    show pyDeleteChar (pyReplaceChar (pyStr dtV) 'T' ' ') 'Z' = String.mk (d ++ ' ' :: t)
    rw [← h2]
    exact iso_timestamp_replace d t hd ht

/-- Claim C3 witness: the "log" payload is dropped and the concrete
kept event with `meta.dt = "2024-01-01T00:00:00Z"` gets
`event_timestamp = "2024-01-01 00:00:00"`. -/
theorem c3_witness :
    sse_event_keep [("type", JsonVal.str "log")] = false ∧
    sse_event_keep c3data = true ∧
    transform_data c3data = Except.ok c3rec ∧
    c3rec.event_timestamp = "2024-01-01 00:00:00" := by
  refine ⟨rfl, rfl, rfl, ?_⟩
  have h := c3_filter_iff_and_timestamp_normalization.2 c3data c3meta
    ("2024-01-01".toList) ("00:00:00".toList) c3rec (by rfl) (by rfl) (by rfl) (by rfl)
    (by decide) (by decide)
  exact h.trans (by rfl)

/-- Supremum of a nonempty interval of ids. -/
theorem sup_Icc_id (a b : ℕ) (hab : a ≤ b) : (Finset.Icc a b).sup id = b := by
  apply le_antisymm
  · exact Finset.sup_le fun x hx => (Finset.mem_Icc.mp hx).2
  · exact Finset.le_sup (f := id) (Finset.mem_Icc.mpr ⟨hab, le_refl b⟩)

/-- The clamped SQL cutoff is the truncated natural subtraction. -/
theorem cutoff_cast (mx M : ℕ) : max 0 ((mx : ℤ) - (M : ℤ)) = ((mx - M : ℕ) : ℤ) := by
  omega

/-- Retention filtering of an id interval keeps the ids at or above the
cutoff. -/
theorem filter_Icc_ge (a b c : ℕ) :
    (Finset.Icc a b).filter (fun (i : ℕ) => ¬ ((i : ℤ) < (c : ℤ))) = Finset.Icc (max a c) b := by
  ext x
  simp only [Finset.mem_filter, Finset.mem_Icc, max_le_iff, not_lt]
  omega

/-- Retention cleanup on a committed-only interval store: with `M` at
most the interval span, the surviving rows are the top `M + 1` ids. -/
theorem cleanupStore_Icc (k M a n : ℕ) (hM : M ≤ n) :
    cleanupStore M { nextId := k, committed := Finset.Icc a (a + n), pending := ∅ } =
      { nextId := k, committed := Finset.Icc (a + (n - M)) (a + n), pending := ∅ } := by
  have hsup :
      sqlMaxId { nextId := k, committed := Finset.Icc a (a + n), pending := (∅ : Finset ℕ) }
        = a + n := by
    unfold sqlMaxId liveSet
    simp only [Finset.union_empty]
    exact sup_Icc_id a (a + n) (by omega)
  unfold cleanupStore
  rw [hsup, cutoff_cast, filter_Icc_ge, Finset.filter_empty]
  have hmax : max a (a + n - M) = a + (n - M) := by omega
  rw [hmax]

/-- Claim C2 (amended): with `db_max_events = 1000` the trigger
`int(1.1*1000)` is 1100; on any committed store state whose live ids
form an interval of 1100 rows (reachable states are intervals, since
inserts extend the top and retention deletes a prefix), the cleanup
deletes exactly the rows with id below `max_id − 1000`, after which the
row count is exactly 1001 — not 1000 — and the surviving rows are
exactly the 1001 highest id values previously present. -/
theorem c2_retention_boundary_amended (a k : ℕ) :
    cleanup_threshold 1000 = 1100 ∧
    (liveSet { nextId := k, committed := Finset.Icc a (a + 1099), pending := ∅ }).card = 1100 ∧
    (cleanupStore 1000 { nextId := k, committed := Finset.Icc a (a + 1099), pending := ∅ }).committed
      = Finset.Icc (a + 99) (a + 1099) ∧
    (cleanupStore 1000 { nextId := k, committed := Finset.Icc a (a + 1099), pending := ∅ }).committed.card
      = 1001 ∧
    (∀ x ∈ (cleanupStore 1000 { nextId := k, committed := Finset.Icc a (a + 1099), pending := ∅ }).committed,
      ∀ y ∈ Finset.Icc a (a + 1099),
        y ∉ (cleanupStore 1000 { nextId := k, committed := Finset.Icc a (a + 1099), pending := ∅ }).committed →
        y < x) := by
  have hclean := cleanupStore_Icc k 1000 a 1099 (by omega)
  have h99 : a + (1099 - 1000) = a + 99 := by omega
  rw [h99] at hclean
  refine ⟨rfl, ?_, ?_, ?_, ?_⟩
  · unfold liveSet
    simp only [Finset.union_empty, Nat.card_Icc]
    omega
  · rw [hclean]
  · rw [hclean]
    simp only [Nat.card_Icc]
    omega
  · rw [hclean]
    intro x hx y hy hy2
    simp only [Finset.mem_Icc] at hx hy hy2
    omega

/-- Claim C2 counterexample: on the concrete store holding the committed
ids 1..1100 (row count exactly 1100), the retention cleanup leaves 1001
rows, not the 1000 the claim states. -/
theorem c2_counterexample :
    (cleanupStore 1000
        { nextId := 1101, committed := Finset.Icc 1 1100, pending := ∅ }).committed.card
      ≠ 1000 := by
  have e : Finset.Icc (1 : ℕ) 1100 = Finset.Icc 1 (1 + 1099) := by norm_num
  rw [e]
  have h := cleanupStore_Icc 1101 1000 1 1099 (by omega)
  rw [h]
  simp only [Nat.card_Icc]
  omega

/-- Insertion adds the fresh id to the live view. -/
theorem liveSet_insertStore (s : Store) :
    liveSet (insertStore s) = insert s.nextId (liveSet s) := by
  simp only [liveSet, insertStore]
  ext x
  simp only [Finset.mem_union, Finset.mem_insert]
  tauto

/-- Commit does not change the live view. -/
theorem liveSet_commitStore (s : Store) : liveSet (commitStore s) = liveSet s := by
  unfold liveSet commitStore
  exact Finset.union_empty _

/-- Cleanup filters the live view by the retention cutoff. -/
theorem liveSet_cleanupStore (M : ℕ) (s : Store) :
    liveSet (cleanupStore M s) =
      (liveSet s).filter (fun (i : ℕ) => ¬ ((i : ℤ) < max 0 ((sqlMaxId s : ℤ) - (M : ℤ)))) := by
  unfold liveSet cleanupStore
  exact (Finset.filter_union _ _ _).symm

/-- Adjoining the next id on top of an interval of ids below it. -/
theorem insert_nextId_Icc (c k : ℕ) (hk : 1 ≤ k) :
    insert k (Finset.Icc c (k - 1)) = Finset.Icc (min c k) k := by
  ext x
  simp only [Finset.mem_insert, Finset.mem_Icc, min_le_iff]
  omega

/-- Invariant of the store state machine: from any state whose live ids
form an interval topped by the last assigned id, any operation sequence
leads to a state of the same shape, with `nextId` advanced by the number
of inserts. -/
theorem runOps_interval (ops : List StoreOp) :
    ∀ s : Store, 1 ≤ s.nextId →
      (∃ c, 1 ≤ c ∧ liveSet s = Finset.Icc c (s.nextId - 1)) →
      1 ≤ (runOps s ops).nextId ∧
      (runOps s ops).nextId = s.nextId + countInserts ops ∧
      ∃ c, 1 ≤ c ∧ liveSet (runOps s ops) = Finset.Icc c ((runOps s ops).nextId - 1) := by
  induction ops with
  | nil =>
    intro s h1 h2
    exact ⟨h1, by simp [runOps, countInserts], h2⟩
  | cons op rest ih =>
    intro s h1 h2
    obtain ⟨c, hc1, hc2⟩ := h2
    cases op with
    | insert =>
      have hinv : ∃ c2, 1 ≤ c2 ∧
          liveSet (insertStore s) = Finset.Icc c2 ((insertStore s).nextId - 1) := by
        refine ⟨min c s.nextId, by omega, ?_⟩
        rw [liveSet_insertStore, hc2]
        have he : (insertStore s).nextId - 1 = s.nextId := by
          simp only [insertStore]
          omega
        rw [he, insert_nextId_Icc c s.nextId h1]
      have hstep := ih (insertStore s) (by simp only [insertStore]; omega) hinv
      refine ⟨hstep.1, ?_, hstep.2.2⟩
      have hn := hstep.2.1
      show (runOps (insertStore s) rest).nextId = s.nextId + countInserts (.insert :: rest)
      rw [hn]
      show s.nextId + 1 + countInserts rest = s.nextId + (countInserts rest + 1)
      omega
    | commit =>
      have hinv : ∃ c2, 1 ≤ c2 ∧
          liveSet (commitStore s) = Finset.Icc c2 ((commitStore s).nextId - 1) := by
        refine ⟨c, hc1, ?_⟩
        rw [liveSet_commitStore]
        exact hc2
      exact ih (commitStore s) h1 hinv
    | cleanup M =>
      have hinv : ∃ c2, 1 ≤ c2 ∧
          liveSet (cleanupStore M s) = Finset.Icc c2 ((cleanupStore M s).nextId - 1) := by
        refine ⟨max c (sqlMaxId s - M), by omega, ?_⟩
        rw [liveSet_cleanupStore, hc2, cutoff_cast, filter_Icc_ge]
        rfl
      exact ih (cleanupStore M s) h1 hinv

/-- The ids assigned by an operation sequence are consecutive from the
starting `nextId`. -/
theorem assignedIds_range (ops : List StoreOp) :
    ∀ s : Store, assignedIds s ops = List.range' s.nextId (countInserts ops) := by
  induction ops with
  | nil => intro s; rfl
  | cons op rest ih =>
    intro s
    cases op with
    | insert =>
      show s.nextId :: assignedIds (insertStore s) rest
        = List.range' s.nextId (countInserts rest + 1)
      rw [ih (insertStore s)]
      rfl
    | commit => exact ih (commitStore s)
    | cleanup M => exact ih (cleanupStore M s)

/-- Claim C6: starting from the fresh store, the ids of successful
inserts are the consecutive sequence 1, 2, …, n (hence each newly
inserted id is strictly greater than every previously inserted one,
across any interleaving of commits and retention cleanups), and after
any operation sequence — any retention deletions included — the
surviving ids form a contiguous interval `Icc c n` topped by the last
assigned id: a contiguous suffix of the original id sequence. -/
theorem c6_monotonic_identity (ops : List StoreOp) :
    assignedIds initStore ops = List.range' 1 (countInserts ops) ∧
    List.Pairwise (fun i j => i < j) (assignedIds initStore ops) ∧
    ∃ c, 1 ≤ c ∧ liveSet (runOps initStore ops) = Finset.Icc c (countInserts ops) := by
  have hr := assignedIds_range ops initStore
  refine ⟨hr, ?_, ?_⟩
  · rw [hr]
    exact List.pairwise_lt_range' 1 (countInserts ops)
  · have hinit : ∃ c, 1 ≤ c ∧ liveSet initStore = Finset.Icc c (initStore.nextId - 1) := by
      refine ⟨1, le_refl 1, ?_⟩
      show (∅ : Finset ℕ) ∪ ∅ = Finset.Icc 1 0
      rw [Finset.union_empty]
      exact (Finset.Icc_eq_empty (by omega)).symm
    have h := runOps_interval ops initStore (le_refl 1) hinit
    obtain ⟨h1, h2, c, hc1, hc2⟩ := h
    refine ⟨c, hc1, ?_⟩
    rw [hc2]
    have : (runOps initStore ops).nextId - 1 = countInserts ops := by
      rw [h2]
      show 1 + countInserts ops - 1 = countInserts ops
      omega
    rw [this]

/-- Claim C1 (recorded behavior at the failing input): a single kept
event with `bot` absent makes `transform_data` raise `TypeError`, which
`db_insert_event` does not catch (its `try` covers only
`cursor.execute`) and the loop's `except` clause does not catch (it
lists only the three `requests` transport classes), so the exception
escapes `pipeline` and the process crashes — this per-event
normalization failure is not absorbed. For contrast, an invalid-JSON
frame and a failed `INSERT` (`sqlite3.Error`) are absorbed and the loop
continues. -/
theorem c1_normalization_error_escapes_pipeline :
    pipeline_run 1000 initPipeState
        [.frame (.payload (.obj [("type", JsonVal.str "edit")])) false false]
      = (initPipeState, some PyError.typeError) ∧
    pipeline_run 1000 initPipeState [.frame .invalid false false]
      = (initPipeState, none) ∧
    pipeline_run 1000 initPipeState
        [.frame (.payload (.obj [("type", JsonVal.str "edit"), ("bot", JsonVal.bool true)]))
           false true]
      = (initPipeState, none) := by
  exact ⟨rfl, rfl, rfl⟩

/-- Claim C5: whenever a `KeyboardInterrupt` escapes the streaming loop,
the `finally` block of `main` commits the final partial batch before the
connection is released: the final store has no pending rows and every
row that was pending at the interrupt is committed. -/
theorem c5_shutdown_commits_pending (M : ℕ) (items : List StreamItem) (st : PipeState)
    (h : pipeline_run M initPipeState items = (st, some PyError.keyboardInterrupt)) :
    (main_run M items).store.pending = ∅ ∧
    (main_run M items).error = none ∧
    ∀ i ∈ st.store.pending, i ∈ (main_run M items).store.committed := by
  unfold main_run
  rw [h]
  refine ⟨rfl, rfl, ?_⟩
  intro i hi
  show i ∈ st.store.committed ∪ st.store.pending
  exact Finset.mem_union_right _ hi

/-- Claim C5 witness: a concrete run — one successful insert, no commit
tick, then the stop signal — leaves row 1 pending at the interrupt, and
after `main`'s shutdown path row 1 is committed. -/
theorem c5_witness :
    pipeline_run 1000 initPipeState c5items
      = ({ store := { nextId := 2, committed := ∅, pending := {1} },
           rows_added := 1, sleeps := [], connections := 1 },
         some PyError.keyboardInterrupt) ∧
    1 ∈ (main_run 1000 c5items).store.committed := by
  constructor
  · decide
  · exact (c5_shutdown_commits_pending 1000 c5items
      { store := { nextId := 2, committed := ∅, pending := {1} },
        rows_added := 1, sleeps := [], connections := 1 }
      (by decide)).2.2 1 (by decide)

/-- An `if` whose two branches both return `ok` returns `ok`. -/
theorem ite_ok_exists (P : Prop) [Decidable P] (a b : PipeState) :
    ∃ st2, (if P then Except.ok a else Except.ok b : Except PyError PipeState)
      = Except.ok st2 := by
  by_cases h : P
  · exact ⟨a, if_pos h⟩
  · exact ⟨b, if_neg h⟩

/-- A benign stream item never makes the loop body raise. -/
theorem pipeline_step_benign (M : ℕ) (st : PipeState) (it : StreamItem)
    (h : benignItem it) : ∃ st2, pipeline_step M st it = Except.ok st2 := by
  cases it with
  | interrupt => exact h.elim
  | transportFail e => exact ⟨_, rfl⟩
  | frame f commitDue insertFails =>
    cases f with
    | invalid => exact ⟨_, rfl⟩
    | payload v =>
      cases v with
      | null => exact h.elim
      | bool b => exact h.elim
      | int n => exact h.elim
      | str s => exact h.elim
      | arr xs => exact h.elim
      | obj data =>
        simp only [pipeline_step]
        by_cases hk : sse_event_keep data = true
        · rw [if_pos hk]
          obtain ⟨r, hr⟩ := h hk
          rw [hr]
          cases insertFails with
          | true => exact ⟨st, rfl⟩
          | false =>
            cases commitDue with
            | false => exact ⟨_, rfl⟩
            | true => exact ite_ok_exists _ _ _
        · rw [if_neg hk]
          exact ⟨st, rfl⟩

/-- A run of benign items never escapes the loop with an exception. -/
theorem pipeline_run_benign (M : ℕ) :
    ∀ (items : List StreamItem) (st : PipeState), (∀ it ∈ items, benignItem it) →
      (pipeline_run M st items).2 = none := by
  intro items
  induction items with
  | nil => intro st h; rfl
  | cons it rest ih =>
    intro st h
    obtain ⟨st2, hst2⟩ := pipeline_step_benign M st it (h it (List.mem_cons_self _ _))
    have hred : pipeline_run M st (it :: rest) = pipeline_run M st2 rest := by
      have hmatch : pipeline_run M st (it :: rest)
          = match pipeline_step M st it with
            | .ok st1 => pipeline_run M st1 rest
            | .error e => (st, some e) := rfl
      rw [hmatch, hst2]
    rw [hred]
    exact ih st2 (fun x hx => h x (List.mem_cons_of_mem _ hx))

/-- Any number of consecutive transport failures is absorbed: each adds
one 5-second sleep and one fresh generator invocation, and the run ends
with no escaping exception. -/
theorem pipeline_run_replicate_transportFail (M : ℕ) :
    ∀ (n : ℕ) (st : PipeState),
      pipeline_run M st (List.replicate n (.transportFail .requestsTimeout))
        = ({ st with sleeps := st.sleeps ++ List.replicate n 5,
                     connections := st.connections + n }, none) := by
  intro n
  induction n with
  | zero =>
    intro st
    simp [pipeline_run]
  | succ n ih =>
    intro st
    rw [List.replicate_succ]
    have hstep :
        pipeline_run M st
            (.transportFail .requestsTimeout :: List.replicate n (.transportFail .requestsTimeout))
          = pipeline_run M
              { st with sleeps := st.sleeps ++ [5], connections := st.connections + 1 }
              (List.replicate n (.transportFail .requestsTimeout)) := rfl
    rw [hstep, ih]
    have h5 : (st.sleeps ++ [5]) ++ List.replicate n 5 = st.sleeps ++ List.replicate (n + 1) 5 := by
      rw [List.append_assoc, List.replicate_succ]
      rfl
    have hc : st.connections + 1 + n = st.connections + (n + 1) := by omega
    rw [h5, hc]

/-- Claim C7 (amended): every transport-level failure (any of the three
caught `requests` classes) is handled by exactly `time.sleep(5)` and one
more generator invocation — a fresh connection; any number of
consecutive transport failures is survived, so retries are unbounded;
and a run whose items are all benign (no stop signal, every kept payload
normalizes) never ends the loop. (The claim's unconditional "never
terminates on its own" fails: a kept payload whose normalization raises
also ends the loop — see the counterexample.) -/
theorem c7_fixed_backoff_unbounded_retry :
    (∀ (M : ℕ) (st : PipeState) (e : PyError),
      pipeline_step M st (.transportFail e)
        = Except.ok { st with sleeps := st.sleeps ++ [5],
                              connections := st.connections + 1 }) ∧
    (∀ M n : ℕ,
      pipeline_run M initPipeState (List.replicate n (.transportFail .requestsTimeout))
        = ({ initPipeState with sleeps := List.replicate n 5, connections := 1 + n }, none)) ∧
    (∀ (M : ℕ) (items : List StreamItem), (∀ it ∈ items, benignItem it) →
      (pipeline_run M initPipeState items).2 = none) := by
  refine ⟨fun M st e => rfl, fun M n => ?_, fun M items h => pipeline_run_benign M items _ h⟩
  have h := pipeline_run_replicate_transportFail M n initPipeState
  simpa [initPipeState] using h

/-- Claim C7 witness: three consecutive timeouts give three 5-second
sleeps and three reconnections with the loop still running, and a benign
run (a transport failure, a bad-JSON frame, a kept well-formed event
with a commit tick) ends with no escaping exception. -/
theorem c7_witness :
    pipeline_run 1000 initPipeState
        (List.replicate 3 (.transportFail .requestsTimeout))
      = ({ initPipeState with sleeps := [5, 5, 5], connections := 4 }, none) ∧
    (pipeline_run 1000 initPipeState
        [.transportFail .requestsConnectionError, .frame .invalid false false,
         .frame (.payload (.obj [("type", JsonVal.str "edit"), ("bot", JsonVal.bool false)]))
           true false]).2 = none := by
  constructor
  · rw [c7_fixed_backoff_unbounded_retry.2.1 1000 3]
    decide
  · refine c7_fixed_backoff_unbounded_retry.2.2 1000 _ ?_
    intro it hit
    simp only [List.mem_cons, List.not_mem_nil, or_false] at hit
    rcases hit with rfl | rfl | rfl
    · exact trivial
    · exact trivial
    · exact fun _ => ⟨_, rfl⟩

/-- Claim C7 counterexample: a run consisting of a single kept event
whose normalization raises (`bot` absent) ends the ingestion loop with a
`TypeError` — neither an external stop signal nor a store-initialization
failure — so the loop does not keep running unconditionally. -/
theorem c7_counterexample :
    pipeline_run 1000 initPipeState
        [.frame (.payload (.obj [("type", JsonVal.str "new")])) false false]
      = (initPipeState, some PyError.typeError) := by
  exact rfl

/-- Claim C2 witness (amended boundary at a concrete state): cleaning
the store holding committed ids 1..1100 leaves 1001 rows. -/
theorem c2_witness :
    (cleanupStore 1000
        { nextId := 1101, committed := Finset.Icc 1 (1 + 1099), pending := ∅ }).committed.card
      = 1001 :=
  (c2_retention_boundary_amended 1 1101).2.2.2.1
